import Mathlib

/-!
# Verification of the 4C line-component parser core

A shallow embedding of `src/core/io/src/4C_io_linecomponent.cpp`: the shared
stringstream cursor (`CondLine`), the numeric conversion helpers, and the ten
field-component variants with their `read` operations, together with theorems
settling the frozen claims about this core.

The embedding follows the C++ source closely, including the observable
stringstream semantics the code relies on:
* `operator>>` on `std::string` skips whitespace, extracts a token, and sets
  `eofbit` when the token runs to the end of the buffer (plus `failbit` when
  nothing could be extracted);
* `tellg()` returns `-1` and raises `failbit` whenever the stream is not good
  (in particular right after the last token of the buffer was extracted);
* `seekg` first clears `eofbit` and is a no-op on a failed stream;
* `std::stringstream::str(s)` replaces the buffer and resets the get position
  to 0 while keeping the state flags;
* `std::string::erase(pos, len)` throws `std::out_of_range` when `pos` exceeds
  the string size (which is how the code crashes when a size_t subtraction on
  a `tellg() == -1` result wraps around).
-/

namespace Input

set_option maxRecDepth 4000

/-- Whitespace as classified by the default C locale (`isspace`), used by
`operator>>` when skipping separators between tokens. -/
def isWs (c : Char) : Bool :=
  c = ' ' || c = '\t' || c = '\n' || c = '\r' || c = '\x0b' || c = '\x0c'

/-- `startsWith pat t` : does `t` begin with `pat`?  (Bool helper used by the
model of `std::string::find`.) -/
def startsWith : List Char → List Char → Bool
  | [], _ => true
  | _ :: _, [] => false
  | a :: as, b :: bs => decide (a = b) && startsWith as bs

/-- Model of `std::string::find(pat)`: index of the first occurrence of `pat`
in `t`, or `none` for `std::string::npos`. -/
def findSub : List Char → List Char → Option Nat
  | t, pat =>
    match startsWith pat t, t with
    | true, _ => some 0
    | false, [] => none
    | false, _ :: t' => (findSub t' pat).map (· + 1)

/-- The search string used for a label `v`: the label surrounded by single
spaces (`" " + v + " "` in `SeparatorComponent::read` and
`SelectionComponent::read`). -/
def spacePad (v : String) : List Char := (" " ++ v ++ " ").data

/-- Digits of a nonnegative decimal number accumulated to a `Nat`. -/
def digitsToNat (l : List Char) : Nat :=
  l.foldl (fun a c => a * 10 + (c.toNat - 48)) 0

/-- The leading run of decimal digits. -/
def takeDigits (l : List Char) : List Char := l.takeWhile Char.isDigit

/-- Model of `std::stoi(s, &pos)` restricted to base-10 literals: skips
leading whitespace, then an optional sign and at least one digit.  Returns the
value and the index `pos` of the first unconverted character, or `none` for
`std::invalid_argument`.  (Integer overflow is not modelled; values are
unbounded.) -/
def stoiParse (s : List Char) : Option (Int × Nat) :=
  let ws := (s.takeWhile isWs).length
  let rest := s.drop ws
  let sign : Int := match rest with
    | '-' :: _ => -1
    | _ => 1
  let signLen : Nat := match rest with
    | '-' :: _ => 1
    | '+' :: _ => 1
    | _ => 0
  let digits := takeDigits (rest.drop signLen)
  if digits = [] then none
  else some (sign * digitsToNat digits, ws + signLen + digits.length)

/-- Model of `std::stod(s, &pos)` restricted to decimal floating literals
(optional sign, digits with an optional fractional part, optional exponent).
Hexadecimal, `inf` and `nan` forms are never produced by this input format and
are not modelled.  The value is carried exactly as a rational: the parsed
values are only stored and compared, never computed with, so rounding is
irrelevant to the claims. -/
def stodParse (s : List Char) : Option (ℚ × Nat) :=
  let ws := (s.takeWhile isWs).length
  let rest := s.drop ws
  let sign : ℚ := match rest with
    | '-' :: _ => -1
    | _ => 1
  let signLen : Nat := match rest with
    | '-' :: _ => 1
    | '+' :: _ => 1
    | _ => 0
  let rest2 := rest.drop signLen
  let ip := takeDigits rest2
  let rest3 := rest2.drop ip.length
  let hasDot : Bool := match rest3 with
    | '.' :: _ => true
    | _ => false
  let frac := if hasDot then takeDigits (rest3.drop 1) else []
  if ip = [] && frac = [] then none
  else
    let dotLen := if hasDot then 1 + frac.length else 0
    let mantLen := signLen + ip.length + dotLen
    let rest4 := rest2.drop (ip.length + dotLen)
    let expInfo : Option (Int × Nat) :=
      match rest4 with
      | c :: r =>
        if c = 'e' || c = 'E' then
          let esign : Int := match r with
            | '-' :: _ => -1
            | _ => 1
          let esLen : Nat := match r with
            | '-' :: _ => 1
            | '+' :: _ => 1
            | _ => 0
          let eds := takeDigits (r.drop esLen)
          if eds = [] then none else some (esign * digitsToNat eds, 1 + esLen + eds.length)
        else none
      | [] => none
    let mant : ℚ := (digitsToNat ip : ℚ) + (digitsToNat frac : ℚ) / ((10 : ℚ) ^ frac.length)
    match expInfo with
    | some (e, el) => some (sign * mant * (10 : ℚ) ^ e, ws + mantLen + el)
    | none => some (sign * mant, ws + mantLen)

/-- The error taxonomy of the parser core.  Each constructor corresponds to
one `FOUR_C_THROW` site (or a C++ exception escaping the shown code), carrying
the data interpolated into the thrown message. -/
inductive Err where
  /-- `SeparatorComponent::read`: "Required parameter '%s' for section '%s'
  not specified in input file!" -/
  | requiredParameterMissing (sep sect : String)
  /-- `StringComponent::read` / `ProcessedComponent::read`: "Value of
  parameter '%s' for section '%s' not properly specified in input file!" -/
  | emptyValue (nm sect : String)
  /-- `convert_and_validate_string_to_number`, empty mandatory token:
  "Invalid argument! No value of variable '%s' in '%s' specified. ...
  The variable '%s' expects %i input values." -/
  | missingValue (nm sect : String) (expected : Int)
  /-- `convert_and_validate_string_to_number`, malformed leading content:
  "Invalid argument! Failed to read the value '%s' of variable '%s' in '%s'." -/
  | invalidNumericLiteral (tok nm sect : String)
  /-- `throw_error_wrong_data_type` (int overload): leftover characters after
  the converted integer; message ends "The variable '%s' has to be an
  integer." -/
  | trailingGarbageInt (leftover : String) (value : Int) (nm sect : String)
  /-- `throw_error_wrong_data_type` (double overload): leftover characters
  after the converted double; message ends "The variable '%s' has to be a
  floating point." -/
  | trailingGarbageReal (leftover : String) (value : ℚ) (nm sect : String)
  /-- `BoolComponent::read`, token outside the fixed Yes/No literal sets
  (the thrown message is textually the same one as `emptyValue`). -/
  | invalidBooleanLiteral (nm sect : String)
  /-- `InputParameterContainer::get<int>` on an absent or non-integer entry
  (thrown by the external container). -/
  | containerGetFailed (nm : String)
  /-- `FOUR_C_ASSERT(choices_.count(key) == 1, "Internal error.")` in
  `SwitchComponent::read`. -/
  | internalError
  /-- `std::out_of_range` escaping from `std::string::erase`. -/
  | outOfRange
  /-- `std::length_error` from constructing a vector with negative length. -/
  | lengthError
  /-- Out-of-bounds `Teuchos::Array` indexing (undefined behaviour in the
  C++). -/
  | undefinedBehavior
  deriving DecidableEq, Repr

/-- The type-specific wording of `throw_error_wrong_data_type`: the overload
for an `int` value says the variable "has to be an integer", the overload for
a `double` value says it "has to be a floating point". -/
def wrongTypeWording : Err → Option String
  | .trailingGarbageInt _ _ _ _ => some "has to be an integer"
  | .trailingGarbageReal _ _ _ _ => some "has to be a floating point"
  | _ => none

/-- `convert_and_validate_string_to_number<int>`. -/
def convertInt (snumber : List Char) (nm sect : String) (variablelength : Int)
    (optional : Bool) : Except Err Int :=
  match stoiParse snumber with
  | none =>
    if !optional && snumber = [] then .error (.missingValue nm sect variablelength)
    else .error (.invalidNumericLiteral (String.mk snumber) nm sect)
  | some (number, pos) =>
    if pos ≠ snumber.length then
      .error (.trailingGarbageInt (String.mk (snumber.drop pos)) number nm sect)
    else .ok number

/-- `convert_and_validate_string_to_number<double>`. -/
def convertReal (snumber : List Char) (nm sect : String) (variablelength : Int)
    (optional : Bool) : Except Err ℚ :=
  match stodParse snumber with
  | none =>
    if !optional && snumber = [] then .error (.missingValue nm sect variablelength)
    else .error (.invalidNumericLiteral (String.mk snumber) nm sect)
  | some (number, pos) =>
    if pos ≠ snumber.length then
      .error (.trailingGarbageReal (String.mk (snumber.drop pos)) number nm sect)
    else .ok number

/-- A typed value in the result container
(`Core::IO::InputParameterContainer`). -/
inductive Value where
  | int (i : Int)
  | real (r : ℚ)
  | str (s : String)
  | bool (b : Bool)
  | intVec (v : List Int)
  | realVec (v : List ℚ)
  deriving DecidableEq, Repr

/-- The result container, modelled as an association list with most-recent
entry first; `add` shadows any earlier entry of the same name, matching the
map-backed `InputParameterContainer::add`. -/
abbrev Container := List (String × Value)

/-- `container.add(name, value)`. -/
def containerAdd (c : Container) (nm : String) (v : Value) : Container :=
  (nm, v) :: c

/-- `container.get(name)` (the value most recently added under `name`). -/
def containerGet (c : Container) (nm : String) : Option Value :=
  (List.find? (fun p => decide (p.1 = nm)) c).map (fun p => p.2)

/-- `container.get<int>(name)`: `none` models the container throwing because
the entry is absent or not an integer. -/
def containerGetInt (c : Container) (nm : String) : Option Int :=
  match containerGet c nm with
  | some (.int i) => some i
  | _ => none

/-- The shared line cursor: a `std::stringstream` holding the remainder of one
input line.  `text` is the buffer (`str()`), `gpos` the get position, and
`eofbit`/`failbit` the stream state flags. -/
structure CondLine where
  text : List Char
  gpos : Nat
  eofbit : Bool
  failbit : Bool
  deriving DecidableEq, Repr

/-- A fresh cursor over `t`, as built by `std::make_shared<std::stringstream>(t)`. -/
def mkLine (t : String) : CondLine := ⟨t.data, 0, false, false⟩

/-- The still-unread part of the buffer. -/
def restAt (s : CondLine) : List Char := s.text.drop s.gpos

/-- Length of the whitespace run that `operator>>` skips before a token. -/
def skipLen (s : CondLine) : Nat := ((restAt s).takeWhile isWs).length

/-- The token `operator>>` would extract at the current position (empty when
only whitespace remains). -/
def rawTok (s : CondLine) : List Char :=
  ((restAt s).drop (skipLen s)).takeWhile (fun c => !(isWs c))

/-- The string value produced by `*condline >> s` on a stream that was good on
entry (on a non-good stream the sentry fails and the target string is left
untouched; see `stringRead`). -/
def extractTok (s : CondLine) : List Char :=
  if s.failbit || s.eofbit then [] else rawTok s

/-- The stream state after `*condline >> s`: a failed sentry raises
`failbit`; extracting nothing raises `eofbit` and `failbit`; a token that runs
to the very end of the buffer raises `eofbit`. -/
def extractSt (s : CondLine) : CondLine :=
  if s.failbit || s.eofbit then { s with failbit := true }
  else if rawTok s = [] then
    { s with gpos := s.text.length, eofbit := true, failbit := true }
  else
    let p := s.gpos + skipLen s + (rawTok s).length
    { s with gpos := p, eofbit := decide (p = s.text.length) }

/-- The value of `condline->tellg()`: `-1` whenever the stream is not good
(the sentry also raises `failbit` then, see `tellgSt`). -/
def tellgVal (s : CondLine) : Int :=
  if s.failbit || s.eofbit then -1 else (s.gpos : Int)

/-- The stream state after `condline->tellg()`. -/
def tellgSt (s : CondLine) : CondLine :=
  if s.failbit then s
  else if s.eofbit then { s with failbit := true }
  else s

/-- `condline->seekg(p)` for an absolute position `p` (possibly the `-1`
produced by an earlier failed `tellg`): clears `eofbit`, is a no-op on a
failed stream, and fails on an out-of-range position. -/
def seekgI (s : CondLine) (p : Int) : CondLine :=
  let s1 := { s with eofbit := false }
  if s1.failbit then s1
  else if 0 ≤ p ∧ p.toNat ≤ s1.text.length then { s1 with gpos := p.toNat }
  else { s1 with failbit := true }

/-- `condline->seekg(0, condline->end)`. -/
def seekgEnd (s : CondLine) : CondLine :=
  let s1 := { s with eofbit := false }
  if s1.failbit then s1 else { s1 with gpos := s1.text.length }

/-- `condline->str(t)`: replaces the buffer and resets the get position;
state flags survive. -/
def strSet (s : CondLine) (t : List Char) : CondLine :=
  { s with text := t, gpos := 0 }

/-- `std::string::erase(pos, len)`: `none` models the `std::out_of_range`
thrown when `pos` exceeds the string length. -/
def strErase (t : List Char) (pos len : Nat) : Option (List Char) :=
  if pos ≤ t.length then some (t.take pos ++ t.drop (pos + len)) else none

/-- The stream state after the recurring pattern
`condline->str(condline->str().erase((size_t)condline->tellg() - n, n))`,
which removes the just-extracted token of length `n` ending at the current get
position.  When `tellg()` is `-1` (or smaller than `n`) the `size_t`
subtraction wraps around and `erase` throws `std::out_of_range`, leaving the
stream as the `tellg` call left it; `eraseTokErr` is the thrown exception. -/
def eraseTokSt (s : CondLine) (n : Nat) : CondLine :=
  let tg := tellgVal s
  let s1 := tellgSt s
  if tg < 0 then s1
  else if tg.toNat < n then s1
  else
    match strErase s1.text (tg.toNat - n) n with
    | some t => strSet s1 t
    | none => s1

/-- The exception (if any) of the token-erasing pattern; see `eraseTokSt`. -/
def eraseTokErr (s : CondLine) (n : Nat) : Option Err :=
  let tg := tellgVal s
  if tg < 0 then some .outOfRange
  else if tg.toNat < n then some .outOfRange
  else
    match strErase (tellgSt s).text (tg.toNat - n) n with
    | some _ => none
    | none => some .outOfRange

/-- `(size_t)position != condline->str().size()`, the guard every scalar and
vector component uses to decide whether anything remains to be read; a
negative `position` reinterprets as a huge `size_t` and so also differs from
the size. -/
def sizeTNe (p : Int) (n : Nat) : Bool :=
  decide (p < 0) || decide (p.toNat ≠ n)

/-- A vector component's length: a fixed constant, or derived from an earlier
integer field of the same line (`Input::LengthDefinition`). -/
inductive LengthSpec where
  | fixed (n : Int)
  | fromInt (fieldName : String)
  deriving DecidableEq, Repr

/-- `LengthVisitor` from `IntVectorComponent::read` / `RealVectorComponent::read`.
The `fromInt` branch is modelled from the spec: `LengthFromInt` itself lives in
the header `4C_io_linecomponent.hpp`, which is not part of the shown sources;
per spec §4.4 it looks the named field up in the container being built and
fails (fatally) when the entry is absent or not an integer. -/
def resolveLength (l : LengthSpec) (c : Container) : Except Err Int :=
  match l with
  | .fixed n => .ok n
  | .fromInt nm =>
    match containerGetInt c nm with
    | some v => .ok v
    | none => .error (.containerGetFailed nm)

/-- `DefaultLengthVisitor` from `IntVectorComponent::default_line`: a fixed
length renders that many entries, a derived length renders one. -/
def defaultLen : LengthSpec → Int
  | .fixed n => n
  | .fromInt _ => 1

/-- A Selection component's payload: the parallel list of string payloads or
of integer payloads (`stringcondvalues_` / `intcondvalues_`,
`stringtostring_` selecting between them). -/
inductive SelPayload where
  | strs (l : List String)
  | ints (l : List Int)

def payloadLen : SelPayload → Nat
  | .strs l => l.length
  | .ints l => l.length

/-- `stringcondvalues_[pos]` / `intcondvalues_[pos]` wrapped into a `Value`
(callers guard the index; out-of-bounds access is undefined behaviour and
modelled separately). -/
def payloadAt : SelPayload → Nat → Value
  | .strs l, i => .str (l.getD i "")
  | .ints l, i => .int (l.getD i 0)

/-- `std::distance(l.begin(), std::find(l.begin(), l.end(), a))`: index of the
first occurrence of `a`, or `l.length` when absent. -/
def listIndexOf (a : String) : List String → Nat
  | [] => 0
  | x :: rest => if x = a then 0 else listIndexOf a rest + 1

/-- The closed set of field-component variants (`Input::LineComponent`
subclasses).  A `switch` holds its choices map as an association list in
ascending key order (the iteration order of the `std::map` it models). -/
inductive LineComponent where
  | separator (sep : String) (descr : String) (optional : Bool)
  | str (name : String) (defaultvalue : String) (optional : Bool)
  | selection (name : String) (defaultvalue : String) (datfilevalues : List String)
      (payload : SelPayload)
  | int (name : String) (defaultvalue : Int) (optional : Bool)
  | intVector (name : String) (length : LengthSpec) (defaultvalue : Int) (optional : Bool)
  | real (name : String) (defaultvalue : ℚ) (optional : Bool)
  | realVector (name : String) (length : LengthSpec) (defaultvalue : ℚ) (optional : Bool)
  | bool (name : String) (defaultvalue : Bool) (optional : Bool)
  | switch (name : String) (defaultKey : Int)
      (choices : List (Int × String × List LineComponent))
  | processed (name : String) (insert : String → Container → Container)

/-- The outcome of one `read` call: the cursor and container as the call left
them, plus the error of the `FOUR_C_THROW` / exception that aborted it, if
any. -/
structure ReadOut where
  line : CondLine
  container : Container
  error : Option Err
  deriving DecidableEq, Repr

/-- `SeparatorComponent::read`. -/
def separatorRead (sep : String) (optional : Bool) (sect : String)
    (s : CondLine) (c : Container) : ReadOut :=
  match findSub s.text (spacePad sep) with
  | none =>
    if optional then ⟨seekgEnd s, c, none⟩
    else ⟨s, c, some (.requiredParameterMissing sep sect)⟩
  | some position =>
    let position := position + 1
    match strErase s.text position sep.length with
    | some t => ⟨seekgI (strSet s t) (position : Int), c, none⟩
    | none => ⟨s, c, some .outOfRange⟩

/-- `StringComponent::read`.  The extraction target is initialised to the
default value, so a failed sentry (which leaves the target untouched) keeps
the default in `str`. -/
def stringRead (nm dv : String) (optional : Bool) (sect : String)
    (s : CondLine) (c : Container) : ReadOut :=
  let position := tellgVal s
  let s1 := tellgSt s
  if sizeTNe position s1.text.length then
    let str : List Char := if !s1.failbit && !s1.eofbit then extractTok s1 else dv.data
    let s2 := extractSt s1
    if str = [] then ⟨s2, c, some (.emptyValue nm sect)⟩
    else
      match eraseTokErr s2 str.length with
      | some e => ⟨eraseTokSt s2 str.length, c, some e⟩
      | none =>
        ⟨seekgI (eraseTokSt s2 str.length) position,
         containerAdd c nm (.str (String.mk str)), none⟩
  else ⟨s1, containerAdd c nm (.str dv), none⟩

/-- The label search loop of `SelectionComponent::read`: the first declared
label whose space-surrounded form occurs anywhere in the text, with the
position of that occurrence. -/
def selFind (text : List Char) : List String → Option (Nat × String)
  | [] => none
  | v :: rest =>
    match findSub text (spacePad v) with
    | some p => some (p, v)
    | none => selFind text rest

/-- The label a Selection ends up with: the first declared label whose
space-surrounded form occurs in the text, or the declared default when none
does (the value of `selected_value` after the search loop of
`SelectionComponent::read`). -/
def selectedLabel (text : List Char) (vals : List String) (dv : String) : String :=
  match selFind text vals with
  | some (_, v) => v
  | none => dv

/-- `SelectionComponent::read`.  When no label is found, `position` is
`npos` (after the last failed `find`) and the increment wraps it to `0`, so
the erase removes `defaultvalue_.size()` characters from the front of the
buffer; with an empty label list `position` keeps its value-initialised `0`
and becomes `1`. -/
def selectionRead (nm dv : String) (vals : List String) (pay : SelPayload)
    (sect : String) (s : CondLine) (c : Container) : ReadOut :=
  let found := selFind s.text vals
  let position : Nat :=
    match found with
    | some (p, _) => p + 1
    | none => if vals = [] then 1 else 0
  let selected : String :=
    match found with
    | some (_, v) => v
    | none => dv
  match strErase s.text position selected.length with
  | none => ⟨s, c, some .outOfRange⟩
  | some t =>
    let s1 := seekgI (strSet s t) (position : Int)
    let pos := listIndexOf selected vals
    if pos < payloadLen pay then ⟨s1, containerAdd c nm (payloadAt pay pos), none⟩
    else ⟨s1, c, some .undefinedBehavior⟩

/-- `IntComponent::read`. -/
def intRead (nm : String) (dflt : Int) (optional : Bool) (sect : String)
    (s : CondLine) (c : Container) : ReadOut :=
  let position := tellgVal s
  let s1 := tellgSt s
  if sizeTNe position s1.text.length then
    let snumber := extractTok s1
    let s2 := extractSt s1
    let conv : Except Err Int :=
      if !optional || snumber ≠ [] then convertInt snumber nm sect 1 optional
      else .ok dflt
    match conv with
    | .error e => ⟨s2, c, some e⟩
    | .ok number =>
      match eraseTokErr s2 snumber.length with
      | some e => ⟨eraseTokSt s2 snumber.length, c, some e⟩
      | none =>
        ⟨seekgI (eraseTokSt s2 snumber.length) position,
         containerAdd c nm (.int number), none⟩
  else ⟨s1, containerAdd c nm (.int dflt), none⟩

/-- The slot loop of `IntVectorComponent::read`: each slot keeps its
pre-filled default unless a token is read into it; `position` is the get
position captured before the loop, restored after every removal. -/
def intVecLoop (slots : List Int) (position : Int) (nm sect : String)
    (dynamicLength : Int) (optional : Bool) (s : CondLine) :
    CondLine × List Int × Option Err :=
  match slots with
  | [] => (s, [], none)
  | slot :: rest =>
    let snumber := extractTok s
    let s2 := extractSt s
    if optional && snumber = [] then (s2, slot :: rest, none)
    else
      match convertInt snumber nm sect dynamicLength optional with
      | .error e => (s2, slot :: rest, some e)
      | .ok v =>
        match eraseTokErr s2 snumber.length with
        | some e => (eraseTokSt s2 snumber.length, slot :: rest, some e)
        | none =>
          let s4 := seekgI (eraseTokSt s2 snumber.length) position
          let (s5, rest', err) := intVecLoop rest position nm sect dynamicLength optional s4
          (s5, v :: rest', err)

/-- `IntVectorComponent::read`. -/
def intVectorRead (nm : String) (length : LengthSpec) (dflt : Int) (optional : Bool)
    (sect : String) (s : CondLine) (c : Container) : ReadOut :=
  match resolveLength length c with
  | .error e => ⟨s, c, some e⟩
  | .ok dynamicLength =>
    if dynamicLength < 0 then ⟨s, c, some .lengthError⟩
    else
      let nnumbers := List.replicate dynamicLength.toNat dflt
      let position := tellgVal s
      let s1 := tellgSt s
      if sizeTNe position s1.text.length then
        match intVecLoop nnumbers position nm sect dynamicLength optional s1 with
        | (s2, _, some e) => ⟨s2, c, some e⟩
        | (s2, vec, none) => ⟨s2, containerAdd c nm (.intVec vec), none⟩
      else ⟨s1, containerAdd c nm (.intVec nnumbers), none⟩

/-- `RealComponent::read`.  Unlike `IntComponent::read`, the removal of the
consumed token happens inside the conversion branch, so an optional real with
an empty token leaves the buffer untouched (but the stream flagged). -/
def realRead (nm : String) (dflt : ℚ) (optional : Bool) (sect : String)
    (s : CondLine) (c : Container) : ReadOut :=
  let position := tellgVal s
  let s1 := tellgSt s
  if sizeTNe position s1.text.length then
    let snumber := extractTok s1
    let s2 := extractSt s1
    if !(optional && snumber = []) then
      match convertReal snumber nm sect 1 optional with
      | .error e => ⟨s2, c, some e⟩
      | .ok number =>
        match eraseTokErr s2 snumber.length with
        | some e => ⟨eraseTokSt s2 snumber.length, c, some e⟩
        | none =>
          ⟨seekgI (eraseTokSt s2 snumber.length) position,
           containerAdd c nm (.real number), none⟩
    else ⟨s2, containerAdd c nm (.real dflt), none⟩
  else ⟨s1, containerAdd c nm (.real dflt), none⟩

/-- The slot loop of `RealVectorComponent::read`. -/
def realVecLoop (slots : List ℚ) (position : Int) (nm sect : String)
    (dynamicLength : Int) (optional : Bool) (s : CondLine) :
    CondLine × List ℚ × Option Err :=
  match slots with
  | [] => (s, [], none)
  | slot :: rest =>
    let snumber := extractTok s
    let s2 := extractSt s
    if optional && snumber = [] then (s2, slot :: rest, none)
    else
      match convertReal snumber nm sect dynamicLength optional with
      | .error e => (s2, slot :: rest, some e)
      | .ok v =>
        match eraseTokErr s2 snumber.length with
        | some e => (eraseTokSt s2 snumber.length, slot :: rest, some e)
        | none =>
          let s4 := seekgI (eraseTokSt s2 snumber.length) position
          let (s5, rest', err) := realVecLoop rest position nm sect dynamicLength optional s4
          (s5, v :: rest', err)

/-- `RealVectorComponent::read`. -/
def realVectorRead (nm : String) (length : LengthSpec) (dflt : ℚ) (optional : Bool)
    (sect : String) (s : CondLine) (c : Container) : ReadOut :=
  match resolveLength length c with
  | .error e => ⟨s, c, some e⟩
  | .ok dynamicLength =>
    if dynamicLength < 0 then ⟨s, c, some .lengthError⟩
    else
      let nnumbers := List.replicate dynamicLength.toNat dflt
      let position := tellgVal s
      let s1 := tellgSt s
      if sizeTNe position s1.text.length then
        match realVecLoop nnumbers position nm sect dynamicLength optional s1 with
        | (s2, _, some e) => ⟨s2, c, some e⟩
        | (s2, vec, none) => ⟨s2, containerAdd c nm (.realVec vec), none⟩
      else ⟨s1, containerAdd c nm (.realVec nnumbers), none⟩

/-- The fixed boolean literal sets accepted by `BoolComponent::read`. -/
def trueLiterals : List String := ["Yes", "YES", "yes", "True", "TRUE", "true"]

def falseLiterals : List String := ["No", "NO", "no", "False", "FALSE", "false"]

/-- `BoolComponent::read`. -/
def boolRead (nm : String) (dflt : Bool) (optional : Bool) (sect : String)
    (s : CondLine) (c : Container) : ReadOut :=
  let position := tellgVal s
  let s1 := tellgSt s
  if sizeTNe position s1.text.length then
    let sboolean := extractTok s1
    let s2 := extractSt s1
    let sb := String.mk sboolean
    if sb ∈ trueLiterals || sb ∈ falseLiterals then
      let boolean : Bool := sb ∈ trueLiterals
      match eraseTokErr s2 sboolean.length with
      | some e => ⟨eraseTokSt s2 sboolean.length, c, some e⟩
      | none =>
        ⟨seekgI (eraseTokSt s2 sboolean.length) position,
         containerAdd c nm (.bool boolean), none⟩
    else ⟨s2, c, some (.invalidBooleanLiteral nm sect)⟩
  else ⟨s1, containerAdd c nm (.bool dflt), none⟩

/-- `ProcessedComponent::read`: on success the raw token is handed to the
caller-supplied insertion function (`insert_operation_`). -/
def processedRead (nm : String) (insert : String → Container → Container)
    (sect : String) (s : CondLine) (c : Container) : ReadOut :=
  let position := tellgVal s
  let s1 := tellgSt s
  if sizeTNe position s1.text.length then
    let str := extractTok s1
    let s2 := extractSt s1
    if str = [] then ⟨s2, c, some (.emptyValue nm sect)⟩
    else
      match eraseTokErr s2 str.length with
      | some e => ⟨eraseTokSt s2 str.length, c, some e⟩
      | none => ⟨seekgI (eraseTokSt s2 str.length) position, insert (String.mk str) c, none⟩
  else ⟨s1, c, none⟩

/-- The labels of a switch's choices in map order (`names_for_keys`). -/
def switchLabels (choices : List (Int × String × List LineComponent)) : List String :=
  choices.map (fun ch => ch.2.1)

/-- The keys of a switch's choices in map order (`keys`). -/
def switchKeys (choices : List (Int × String × List LineComponent)) : List Int :=
  choices.map (fun ch => ch.1)

/-- `choices_[default_key_].first`, the default label handed to the embedded
`SelectionComponent`; an absent key default-constructs an empty label. -/
def switchDefaultLabel (choices : List (Int × String × List LineComponent))
    (dk : Int) : String :=
  ((choices.find? (fun ch => decide (ch.1 = dk))).map (fun ch => ch.2.1)).getD ""

mutual

/-- Polymorphic dispatch of `LineComponent::read` over the ten variants. -/
def readComp : LineComponent → String → CondLine → Container → ReadOut
  | .separator sep _ opt, sect, s, c => separatorRead sep opt sect s c
  | .str nm dv opt, sect, s, c => stringRead nm dv opt sect s c
  | .selection nm dv vals pay, sect, s, c => selectionRead nm dv vals pay sect s c
  | .int nm dv opt, sect, s, c => intRead nm dv opt sect s c
  | .intVector nm len dv opt, sect, s, c => intVectorRead nm len dv opt sect s c
  | .real nm dv opt, sect, s, c => realRead nm dv opt sect s c
  | .realVector nm len dv opt, sect, s, c => realVectorRead nm len dv opt sect s c
  | .bool nm dv opt, sect, s, c => boolRead nm dv opt sect s c
  | .processed nm ins, sect, s, c => processedRead nm ins sect s c
  | .switch nm dk choices, sect, s, c =>
    let out := selectionRead nm (switchDefaultLabel choices dk) (switchLabels choices)
      (.ints (switchKeys choices)) sect s c
    match out.error with
    | some _ => out
    | none =>
      match containerGetInt out.container nm with
      | none => ⟨out.line, out.container, some (.containerGetFailed nm)⟩
      | some key => readChoices choices key sect out.line out.container

/-- `choices_[key].second` dispatch of `SwitchComponent::read`; reaching the
end of the map is the `FOUR_C_ASSERT` internal error. -/
def readChoices : List (Int × String × List LineComponent) → Int → String →
    CondLine → Container → ReadOut
  | [], _, _, s, c => ⟨s, c, some .internalError⟩
  | ch :: rest, key, sect, s, c =>
    if ch.1 = key then readList ch.2.2 sect s c
    else readChoices rest key sect s c

/-- The line-level driver: each component's `read` in declared order against
the shared cursor and container, aborting at the first error. -/
def readList : List LineComponent → String → CondLine → Container → ReadOut
  | [], _, s, c => ⟨s, c, none⟩
  | comp :: rest, sect, s, c =>
    let out := readComp comp sect s c
    match out.error with
    | some _ => out
    | none => readList rest sect out.line out.container

end

mutual

/-- `default_line` of each variant: the example/default text it renders.
`none` marks the two real-valued variants, whose rendering goes through
`operator<<(std::ostream, double)`; floating-point formatting is outside the
modelled scope (the claims never exercise it).  Note `IntVectorComponent`
renders each entry with a trailing space while `RealVectorComponent` renders
its entries without any separator. -/
def renderDefault : LineComponent → Option String
  | .separator sep _ _ => some sep
  | .str _ dv _ => some dv
  | .selection _ dv _ _ => some dv
  | .int _ dv _ => some (toString dv)
  | .intVector _ len dv _ =>
    some (String.join (List.replicate (defaultLen len).toNat (toString dv ++ " ")))
  | .real _ _ _ => none
  | .realVector _ _ _ _ => none
  | .bool _ dv _ => some (if dv then "Yes" else "No")
  | .processed _ _ => some "none"
  | .switch _ dk choices =>
    match renderChoice choices dk with
    | some rest => some (switchDefaultLabel choices dk ++ " " ++ rest)
    | none => none

/-- The sub-field rendering of `SwitchComponent::default_line` for the default
key's choice list. -/
def renderChoice : List (Int × String × List LineComponent) → Int → Option String
  | [], _ => some ""
  | ch :: rest, dk =>
    if ch.1 = dk then renderSubList ch.2.2
    else renderChoice rest dk

/-- Each sub-component's `default_line` followed by a single space. -/
def renderSubList : List LineComponent → Option String
  | [] => some ""
  | comp :: rest =>
    match renderDefault comp, renderSubList rest with
    | some a, some b => some (a ++ " " ++ b)
    | _, _ => none

end

/-- Modelled from the spec: the rendering protocol of the round-trip claim —
each field's default text, in declared order, joined by single spaces. -/
def renderFieldsJoined : List LineComponent → Option String
  | [] => some ""
  | [comp] => renderDefault comp
  | comp :: rest =>
    match renderDefault comp, renderFieldsJoined rest with
    | some a, some b => some (a ++ " " ++ b)
    | _, _ => none

/-- The field list of the spec's concrete NUMSCAL/STOICHIOMETRIES scenario
(as declared in `Inpar::SSI::set_valid_conditions` for Butler-Volmer-reduced
kinetics: all four components mandatory, integer defaults 0). -/
def numscalFields : List LineComponent :=
  [.separator "NUMSCAL" "" false,
   .int "NUMSCAL" 0 false,
   .separator "STOICHIOMETRIES" "" false,
   .intVector "STOICHIOMETRIES" (.fromInt "NUMSCAL") 0 false]

/-- A representative field list for the rendering round-trip (a fixed-length
variant of the NUMSCAL scenario, defaults 3 and 1). -/
def roundTripFields : List LineComponent :=
  [.separator "NUMSCAL" "" false,
   .int "NUMSCAL" 3 false,
   .separator "STOICHIOMETRIES" "" false,
   .intVector "STOICHIOMETRIES" (.fixed 2) 1 false]

/-- A sample two-choice switch used to witness switch dispatch. -/
def switchSample : LineComponent :=
  .switch "KINETIC_MODEL" 0
    [(0, "ModelA", [.int "P" 7 false]),
     (1, "ModelB", [.bool "Q" false false])]

/-- `pat` occurs (contiguously) somewhere in `t`. -/
def occursIn (pat t : List Char) : Prop := ∃ a b, t = a ++ (pat ++ b)

/-- The cursor consistency invariant: the read position lies within
`[0, length]` of the current buffer. -/
def WF (s : CondLine) : Prop := s.gpos ≤ s.text.length

/-! ## Lemmas about the search and lookup primitives -/

theorem startsWith_iff (pat t : List Char) :
    startsWith pat t = true ↔ ∃ r, t = pat ++ r := by
  induction pat generalizing t with
  | nil => simp [startsWith]
  | cons a as ih =>
    cases t with
    | nil => simp [startsWith]
    | cons b bs =>
      simp only [startsWith, Bool.and_eq_true, decide_eq_true_eq, ih, List.cons_append,
        List.cons.injEq]
      constructor
      · rintro ⟨hab, r, hr⟩
        exact ⟨r, hab.symm, hr⟩
      · rintro ⟨r, hab, hr⟩
        exact ⟨hab.symm, r, hr⟩

theorem findSub_pos (t pat : List Char) (h : startsWith pat t = true) :
    findSub t pat = some 0 := by
  simp [findSub, h]

theorem findSub_nil_neg (pat : List Char) (h : startsWith pat [] = false) :
    findSub [] pat = none := by
  simp [findSub, h]

theorem findSub_cons_neg (c : Char) (t' pat : List Char)
    (h : startsWith pat (c :: t') = false) :
    findSub (c :: t') pat = (findSub t' pat).map (· + 1) := by
  simp [findSub, h]

theorem findSub_isSome_iff (t pat : List Char) :
    (findSub t pat).isSome = true ↔ occursIn pat t := by
  induction t with
  | nil =>
    cases h : startsWith pat [] with
    | true =>
      obtain ⟨r, hr⟩ := (startsWith_iff pat []).mp h
      rw [findSub_pos _ _ h]
      exact iff_of_true rfl ⟨[], r, by simpa using hr⟩
    | false =>
      rw [findSub_nil_neg _ h]
      refine iff_of_false (by simp) ?_
      rintro ⟨a, b, hab⟩
      rcases List.append_eq_nil.mp hab.symm with ⟨ha, hpb⟩
      rcases List.append_eq_nil.mp hpb with ⟨hp, hb⟩
      rw [hp] at h
      simp [startsWith] at h
  | cons c t' ih =>
    cases h : startsWith pat (c :: t') with
    | true =>
      obtain ⟨r, hr⟩ := (startsWith_iff pat (c :: t')).mp h
      rw [findSub_pos _ _ h]
      exact iff_of_true rfl ⟨[], r, by simpa using hr⟩
    | false =>
      have hmap : ((findSub t' pat).map (· + 1)).isSome = true ↔
          (findSub t' pat).isSome = true := by
        cases findSub t' pat <;> simp
      rw [findSub_cons_neg _ _ _ h, hmap, ih]
      unfold occursIn
      constructor
      · rintro ⟨a, b, hab⟩
        exact ⟨c :: a, b, by simp [hab]⟩
      · rintro ⟨a, b, hab⟩
        cases a with
        | nil =>
          exact absurd ((startsWith_iff pat (c :: t')).mpr ⟨b, by simpa using hab⟩)
            (by simp [h])
        | cons x a' =>
          have h2 : c :: t' = x :: (a' ++ (pat ++ b)) := by simpa using hab
          exact ⟨a', b, ((List.cons.injEq _ _ _ _).mp h2).2⟩

theorem findSub_eq_none_iff (t pat : List Char) :
    findSub t pat = none ↔ ¬ occursIn pat t := by
  rw [← findSub_isSome_iff t pat]
  constructor
  · intro h hs
    rw [h] at hs
    simp at hs
  · intro h
    cases hf : findSub t pat with
    | none => rfl
    | some p => exact absurd (by simp [hf]) h

theorem findSub_eq_some (t pat : List Char) (p : Nat) (h : findSub t pat = some p) :
    p ≤ t.length ∧ ∃ r, t.drop p = pat ++ r := by
  induction t generalizing p with
  | nil =>
    cases hs : startsWith pat [] with
    | true =>
      rw [findSub_pos _ _ hs] at h
      obtain rfl : 0 = p := Option.some.inj h
      exact ⟨Nat.zero_le _, (startsWith_iff pat []).mp hs⟩
    | false =>
      rw [findSub_nil_neg _ hs] at h
      exact absurd h (by simp)
  | cons c t' ih =>
    cases hs : startsWith pat (c :: t') with
    | true =>
      rw [findSub_pos _ _ hs] at h
      obtain rfl : 0 = p := Option.some.inj h
      exact ⟨Nat.zero_le _, (startsWith_iff pat (c :: t')).mp hs⟩
    | false =>
      rw [findSub_cons_neg _ _ _ hs, Option.map_eq_some'] at h
      obtain ⟨q, hq, hp⟩ := h
      obtain ⟨hle, r, hr⟩ := ih q hq
      subst hp
      exact ⟨by simpa using Nat.succ_le_succ hle, r, by simpa using hr⟩

theorem findSub_some_bound (t pat : List Char) (p : Nat) (h : findSub t pat = some p) :
    p + pat.length ≤ t.length := by
  obtain ⟨hle, r, hr⟩ := findSub_eq_some t pat p h
  have := congrArg List.length hr
  simp only [List.length_drop, List.length_append] at this
  omega

theorem containerGet_add_same (c : Container) (nm : String) (v : Value) :
    containerGet (containerAdd c nm v) nm = some v := by
  simp [containerGet, containerAdd, List.find?]

theorem containerGetInt_add_int (c : Container) (nm : String) (i : Int) :
    containerGetInt (containerAdd c nm (.int i)) nm = some i := by
  simp [containerGetInt, containerGet_add_same]

theorem listIndexOf_lt_length (a : String) (l : List String) (h : a ∈ l) :
    listIndexOf a l < l.length := by
  induction l with
  | nil => cases h
  | cons x rest ih =>
    by_cases hx : x = a
    · simp [listIndexOf, hx]
    · rcases List.mem_cons.mp h with h | h
      · exact absurd h.symm hx
      · simpa [listIndexOf, hx] using Nat.succ_lt_succ (ih h)

theorem listIndexOf_append (l₁ l₂ : List String) (v : String)
    (hne : ∀ u ∈ l₁, u ≠ v) : listIndexOf v (l₁ ++ v :: l₂) = l₁.length := by
  induction l₁ with
  | nil => simp [listIndexOf]
  | cons x rest ih =>
    have hx : x ≠ v := hne x (by simp)
    have ih2 := ih (fun u hu => hne u (by simp [hu]))
    simp only [List.cons_append, listIndexOf, hx, if_false, List.length_cons, List.append_eq]
    omega

theorem selFind_mem (text : List Char) (vals : List String) (p : Nat) (v : String)
    (h : selFind text vals = some (p, v)) :
    v ∈ vals ∧ findSub text (spacePad v) = some p := by
  induction vals with
  | nil => simp [selFind] at h
  | cons u rest ih =>
    rw [selFind] at h
    cases hf : findSub text (spacePad u) with
    | some q =>
      rw [hf] at h
      obtain ⟨hq, hv⟩ := Prod.mk.inj (Option.some.inj h)
      subst hv
      exact ⟨by simp, hq ▸ hf⟩
    | none =>
      rw [hf] at h
      obtain ⟨hm, hfv⟩ := ih h
      exact ⟨by simp [hm], hfv⟩

theorem selFind_eq_none (text : List Char) (vals : List String)
    (h : ∀ u ∈ vals, findSub text (spacePad u) = none) :
    selFind text vals = none := by
  induction vals with
  | nil => rfl
  | cons u rest ih =>
    rw [selFind, h u (by simp)]
    exact ih (fun w hw => h w (by simp [hw]))

theorem selFind_first (text : List Char) (l₁ l₂ : List String) (v : String) (p : Nat)
    (hnone : ∀ u ∈ l₁, findSub text (spacePad u) = none)
    (hv : findSub text (spacePad v) = some p) :
    selFind text (l₁ ++ v :: l₂) = some (p, v) := by
  induction l₁ with
  | nil => rw [List.nil_append, selFind, hv]
  | cons x rest ih =>
    rw [List.cons_append, selFind, hnone x (by simp)]
    exact ih (fun u hu => hnone u (by simp [hu]))

/-! ## Preservation of the cursor-bounds invariant by each primitive -/

theorem takeWhile_len_le (p : Char → Bool) (l : List Char) :
    (l.takeWhile p).length ≤ l.length := by
  induction l with
  | nil => simp
  | cons a as ih =>
    rw [List.takeWhile_cons]
    split
    · simpa using Nat.succ_le_succ ih
    · simp

theorem wf_tellgSt (s : CondLine) (h : WF s) : WF (tellgSt s) := by
  unfold tellgSt
  split
  · exact h
  · split
    · exact h
    · exact h

theorem wf_extractSt (s : CondLine) (h : WF s) : WF (extractSt s) := by
  unfold extractSt
  split
  · exact h
  · split
    · exact Nat.le_refl _
    · have h1 : skipLen s ≤ (restAt s).length := takeWhile_len_le _ _
      have h2 : (rawTok s).length ≤ ((restAt s).drop (skipLen s)).length :=
        takeWhile_len_le _ _
      have h3 : (restAt s).length = s.text.length - s.gpos := by
        simp [restAt]
      have h4 : ((restAt s).drop (skipLen s)).length = (restAt s).length - skipLen s := by
        simp
      unfold WF at h ⊢
      simp only
      omega

theorem wf_seekgI (s : CondLine) (p : Int) (h : WF s) : WF (seekgI s p) := by
  simp only [seekgI]
  split
  · exact h
  · split
    · next hp => exact hp.2
    · exact h

theorem wf_seekgEnd (s : CondLine) (h : WF s) : WF (seekgEnd s) := by
  simp only [seekgEnd]
  split
  · exact h
  · exact Nat.le_refl _

theorem wf_strSet (s : CondLine) (t : List Char) : WF (strSet s t) :=
  Nat.zero_le _

theorem wf_eraseTokSt (s : CondLine) (n : Nat) (h : WF s) : WF (eraseTokSt s n) := by
  simp only [eraseTokSt]
  split
  · exact wf_tellgSt s h
  · split
    · exact wf_tellgSt s h
    · split
      · exact wf_strSet _ _
      · exact wf_tellgSt s h

/-! ## Preservation of the cursor-bounds invariant by each variant's read -/

theorem wf_separatorRead (sep : String) (opt : Bool) (sect : String)
    (s : CondLine) (c : Container) (h : WF s) :
    WF (separatorRead sep opt sect s c).line := by
  simp only [separatorRead]
  repeat' split
  all_goals first
    | exact h
    | exact wf_seekgEnd s h
    | exact wf_seekgI _ _ (wf_strSet _ _)

theorem wf_stringRead (nm dv : String) (opt : Bool) (sect : String)
    (s : CondLine) (c : Container) (h : WF s) :
    WF (stringRead nm dv opt sect s c).line := by
  have h1 := wf_tellgSt s h
  have h2 := wf_extractSt _ h1
  simp only [stringRead]
  repeat' split
  all_goals first
    | exact h1
    | exact h2
    | exact wf_eraseTokSt _ _ h2
    | exact wf_seekgI _ _ (wf_eraseTokSt _ _ h2)

theorem wf_selectionRead (nm dv : String) (vals : List String) (pay : SelPayload)
    (sect : String) (s : CondLine) (c : Container) (h : WF s) :
    WF (selectionRead nm dv vals pay sect s c).line := by
  simp only [selectionRead]
  repeat' split
  all_goals first
    | exact h
    | exact wf_seekgI _ _ (wf_strSet _ _)

theorem wf_intRead (nm : String) (dflt : Int) (opt : Bool) (sect : String)
    (s : CondLine) (c : Container) (h : WF s) :
    WF (intRead nm dflt opt sect s c).line := by
  have h1 := wf_tellgSt s h
  have h2 := wf_extractSt _ h1
  simp only [intRead]
  repeat' split
  all_goals first
    | exact h1
    | exact h2
    | exact wf_eraseTokSt _ _ h2
    | exact wf_seekgI _ _ (wf_eraseTokSt _ _ h2)

theorem wf_intVecLoop (slots : List Int) (position : Int) (nm sect : String)
    (dynamicLength : Int) (opt : Bool) (s : CondLine) (h : WF s) :
    WF (intVecLoop slots position nm sect dynamicLength opt s).1 := by
  induction slots generalizing s with
  | nil => exact h
  | cons slot rest ih =>
    have h2 := wf_extractSt s h
    simp only [intVecLoop]
    repeat' split
    all_goals first
      | exact h2
      | exact wf_eraseTokSt _ _ h2
      | exact ih _ (wf_seekgI _ _ (wf_eraseTokSt _ _ h2))

theorem wf_intVectorRead (nm : String) (len : LengthSpec) (dflt : Int) (opt : Bool)
    (sect : String) (s : CondLine) (c : Container) (h : WF s) :
    WF (intVectorRead nm len dflt opt sect s c).line := by
  have h1 := wf_tellgSt s h
  cases hres : resolveLength len c with
  | error e => simp only [intVectorRead, hres]; exact h
  | ok number =>
    simp only [intVectorRead, hres]
    by_cases hneg : number < 0
    · rw [if_pos hneg]
      exact h
    · rw [if_neg hneg]
      split
      · have h3 := wf_intVecLoop (List.replicate number.toNat dflt) (tellgVal s) nm sect
          number opt (tellgSt s) h1
        split
        · next s2 vec e heq => rw [heq] at h3; exact h3
        · next s2 vec heq => rw [heq] at h3; exact h3
      · exact h1

theorem wf_realRead (nm : String) (dflt : ℚ) (opt : Bool) (sect : String)
    (s : CondLine) (c : Container) (h : WF s) :
    WF (realRead nm dflt opt sect s c).line := by
  have h1 := wf_tellgSt s h
  have h2 := wf_extractSt _ h1
  simp only [realRead]
  repeat' split
  all_goals first
    | exact h1
    | exact h2
    | exact wf_eraseTokSt _ _ h2
    | exact wf_seekgI _ _ (wf_eraseTokSt _ _ h2)

theorem wf_realVecLoop (slots : List ℚ) (position : Int) (nm sect : String)
    (dynamicLength : Int) (opt : Bool) (s : CondLine) (h : WF s) :
    WF (realVecLoop slots position nm sect dynamicLength opt s).1 := by
  induction slots generalizing s with
  | nil => exact h
  | cons slot rest ih =>
    have h2 := wf_extractSt s h
    simp only [realVecLoop]
    repeat' split
    all_goals first
      | exact h2
      | exact wf_eraseTokSt _ _ h2
      | exact ih _ (wf_seekgI _ _ (wf_eraseTokSt _ _ h2))

theorem wf_realVectorRead (nm : String) (len : LengthSpec) (dflt : ℚ) (opt : Bool)
    (sect : String) (s : CondLine) (c : Container) (h : WF s) :
    WF (realVectorRead nm len dflt opt sect s c).line := by
  have h1 := wf_tellgSt s h
  cases hres : resolveLength len c with
  | error e => simp only [realVectorRead, hres]; exact h
  | ok number =>
    simp only [realVectorRead, hres]
    by_cases hneg : number < 0
    · rw [if_pos hneg]
      exact h
    · rw [if_neg hneg]
      split
      · have h3 := wf_realVecLoop (List.replicate number.toNat dflt) (tellgVal s) nm sect
          number opt (tellgSt s) h1
        split
        · next s2 vec e heq => rw [heq] at h3; exact h3
        · next s2 vec heq => rw [heq] at h3; exact h3
      · exact h1

theorem wf_boolRead (nm : String) (dflt opt : Bool) (sect : String)
    (s : CondLine) (c : Container) (h : WF s) :
    WF (boolRead nm dflt opt sect s c).line := by
  have h1 := wf_tellgSt s h
  have h2 := wf_extractSt _ h1
  simp only [boolRead]
  repeat' split
  all_goals first
    | exact h1
    | exact h2
    | exact wf_eraseTokSt _ _ h2
    | exact wf_seekgI _ _ (wf_eraseTokSt _ _ h2)

theorem wf_processedRead (nm : String) (ins : String → Container → Container)
    (sect : String) (s : CondLine) (c : Container) (h : WF s) :
    WF (processedRead nm ins sect s c).line := by
  have h1 := wf_tellgSt s h
  have h2 := wf_extractSt _ h1
  simp only [processedRead]
  repeat' split
  all_goals first
    | exact h1
    | exact h2
    | exact wf_eraseTokSt _ _ h2
    | exact wf_seekgI _ _ (wf_eraseTokSt _ _ h2)

mutual

theorem wf_readComp : ∀ (comp : LineComponent) (sect : String) (s : CondLine)
    (c : Container), WF s → WF (readComp comp sect s c).line
  | .separator sep _ opt, sect, s, c, h => by
    simp only [readComp]
    exact wf_separatorRead sep opt sect s c h
  | .str nm dv opt, sect, s, c, h => by
    simp only [readComp]
    exact wf_stringRead nm dv opt sect s c h
  | .selection nm dv vals pay, sect, s, c, h => by
    simp only [readComp]
    exact wf_selectionRead nm dv vals pay sect s c h
  | .int nm dv opt, sect, s, c, h => by
    simp only [readComp]
    exact wf_intRead nm dv opt sect s c h
  | .intVector nm len dv opt, sect, s, c, h => by
    simp only [readComp]
    exact wf_intVectorRead nm len dv opt sect s c h
  | .real nm dv opt, sect, s, c, h => by
    simp only [readComp]
    exact wf_realRead nm dv opt sect s c h
  | .realVector nm len dv opt, sect, s, c, h => by
    simp only [readComp]
    exact wf_realVectorRead nm len dv opt sect s c h
  | .bool nm dv opt, sect, s, c, h => by
    simp only [readComp]
    exact wf_boolRead nm dv opt sect s c h
  | .processed nm ins, sect, s, c, h => by
    simp only [readComp]
    exact wf_processedRead nm ins sect s c h
  | .switch nm dk choices, sect, s, c, h => by
    simp only [readComp]
    have hsel := wf_selectionRead nm (switchDefaultLabel choices dk) (switchLabels choices)
      (.ints (switchKeys choices)) sect s c h
    split
    · exact hsel
    · split
      · exact hsel
      · exact wf_readChoices choices _ sect _ _ hsel

theorem wf_readChoices : ∀ (choices : List (Int × String × List LineComponent)) (key : Int)
    (sect : String) (s : CondLine) (c : Container), WF s →
    WF (readChoices choices key sect s c).line
  | [], _, _, _, _, h => h
  | ch :: rest, key, sect, s, c, h => by
    simp only [readChoices]
    split
    · exact wf_readList ch.2.2 sect s c h
    · exact wf_readChoices rest key sect s c h

theorem wf_readList : ∀ (comps : List LineComponent) (sect : String) (s : CondLine)
    (c : Container), WF s → WF (readList comps sect s c).line
  | [], _, _, _, h => h
  | comp :: rest, sect, s, c, h => by
    simp only [readList]
    split
    · exact wf_readComp comp sect s c h
    · exact wf_readList rest sect _ _ (wf_readComp comp sect s c h)

end

theorem spacePad_length (v : String) : (spacePad v).length = v.length + 2 := by
  rw [spacePad, String.data_append, String.data_append]
  rw [List.length_append, List.length_append]
  show 1 + v.data.length + 1 = v.length + 1 + 1
  have : v.length = v.data.length := rfl
  omega

theorem strErase_of_le (t : List Char) (pos len : Nat) (h : pos ≤ t.length) :
    strErase t pos len = some (t.take pos ++ t.drop (pos + len)) := by
  simp [strErase, h]

theorem tellgVal_good (s : CondLine) (hf : s.failbit = false) (he : s.eofbit = false) :
    tellgVal s = (s.gpos : Int) := by
  simp [tellgVal, hf, he]

theorem tellgSt_good (s : CondLine) (hf : s.failbit = false) (he : s.eofbit = false) :
    tellgSt s = s := by
  simp [tellgSt, hf, he]

theorem extractTok_good (s : CondLine) (hf : s.failbit = false) (he : s.eofbit = false) :
    extractTok s = rawTok s := by
  simp [extractTok, hf, he]

theorem sizeTNe_self (n : Nat) : sizeTNe (n : Int) n = false := by
  simp [sizeTNe]

theorem sizeTNe_of_ne (n m : Nat) (h : n ≠ m) : sizeTNe (n : Int) m = true := by
  simp [sizeTNe, h]

theorem extractSt_good (s : CondLine) (hf : s.failbit = false) (he : s.eofbit = false)
    (hne : rawTok s ≠ []) :
    extractSt s =
      { s with
        gpos := s.gpos + skipLen s + (rawTok s).length,
        eofbit := decide (s.gpos + skipLen s + (rawTok s).length = s.text.length) } := by
  simp [extractSt, hf, he, hne]

/-- The erase-and-reposition pattern raises no exception on a good stream
whose position is at least the token length. -/
theorem eraseTokErr_good (s2 : CondLine) (n : Nat) (hf : s2.failbit = false)
    (he : s2.eofbit = false) (hwf : WF s2) (hn : n ≤ s2.gpos) :
    eraseTokErr s2 n = none := by
  simp only [eraseTokErr, tellgVal, tellgSt, hf, he]
  simp only [Bool.or_self, Bool.false_eq_true, if_false]
  rw [if_neg (by simp), if_neg (by simp; omega)]
  rw [strErase_of_le _ _ _ (by simp; unfold WF at hwf; omega)]

/-- After a successful token extraction whose token does not reach the end of
the buffer, the erase-and-reposition pattern raises no exception. -/
theorem eraseTokErr_after_extract (s : CondLine) (hf : s.failbit = false)
    (he : s.eofbit = false) (hwf : WF s) (hne : rawTok s ≠ [])
    (he2 : (extractSt s).eofbit = false) :
    eraseTokErr (extractSt s) (rawTok s).length = none := by
  have hst := extractSt_good s hf he hne
  have hf2 : (extractSt s).failbit = false := by
    rw [hst]
    exact hf
  have hg2 : (extractSt s).gpos = s.gpos + skipLen s + (rawTok s).length := by
    rw [hst]
  exact eraseTokErr_good _ _ hf2 he2 (wf_extractSt s hwf) (by rw [hg2]; omega)

/-- What `SelectionComponent::read` always does (given the constructor
invariants: the default is among the accepted labels and the payload list is
parallel to them): it succeeds and stores, under the field's name, the
payload at the index of the selected label — the first label found anywhere
in the text, or the default when none occurs. -/
theorem selectionRead_spec (nm dv : String) (vals : List String) (pay : SelPayload)
    (sect : String) (s : CondLine) (c : Container)
    (hdv : dv ∈ vals) (hlen : payloadLen pay = vals.length) :
    (selectionRead nm dv vals pay sect s c).error = none ∧
    (selectionRead nm dv vals pay sect s c).container =
      containerAdd c nm (payloadAt pay (listIndexOf (selectedLabel s.text vals dv) vals)) ∧
    selectedLabel s.text vals dv ∈ vals := by
  cases hsf : selFind s.text vals with
  | none =>
    have hvne : vals ≠ [] := by
      rintro rfl
      cases hdv
    have hsel : selectedLabel s.text vals dv = dv := by
      simp [selectedLabel, hsf]
    have hidx : listIndexOf dv vals < payloadLen pay := by
      rw [hlen]
      exact listIndexOf_lt_length dv vals hdv
    refine ⟨?_, ?_, by rw [hsel]; exact hdv⟩
    · simp [selectionRead, hsf, hvne, strErase_of_le s.text 0 dv.length (Nat.zero_le _), hidx]
    · simp [selectionRead, hsf, hvne, strErase_of_le s.text 0 dv.length (Nat.zero_le _),
        hidx, hsel]
  | some pv =>
    obtain ⟨p, v⟩ := pv
    obtain ⟨hmem, hfv⟩ := selFind_mem _ _ _ _ hsf
    have hb := findSub_some_bound _ _ _ hfv
    rw [spacePad_length] at hb
    have hsel : selectedLabel s.text vals dv = v := by
      simp [selectedLabel, hsf]
    have hidx : listIndexOf v vals < payloadLen pay := by
      rw [hlen]
      exact listIndexOf_lt_length v vals hmem
    refine ⟨?_, ?_, by rw [hsel]; exact hmem⟩
    · simp [selectionRead, hsf, strErase_of_le s.text (p + 1) v.length (by omega), hidx]
    · simp [selectionRead, hsf, strErase_of_le s.text (p + 1) v.length (by omega),
        hidx, hsel]

theorem find?_of_mem_keys (choices : List (Int × String × List LineComponent)) (k : Int)
    (hk : k ∈ switchKeys choices) :
    ∃ ch, choices.find? (fun ch => decide (ch.1 = k)) = some ch ∧ ch ∈ choices ∧ ch.1 = k := by
  induction choices with
  | nil => cases hk
  | cons ch rest ih =>
    by_cases hc : ch.1 = k
    · exact ⟨ch, by simp [List.find?, hc], by simp, hc⟩
    · have hk' : k ∈ switchKeys rest := by
        rcases List.mem_cons.mp hk with h | h
        · exact absurd h.symm hc
        · exact h
      obtain ⟨ch', hfind, hmem, hch⟩ := ih hk'
      exact ⟨ch', by simp [List.find?, hc, hfind], by simp [hmem], hch⟩

theorem getD_mem_of_lt (l : List Int) (i : Nat) (d : Int) (h : i < l.length) :
    l.getD i d ∈ l := by
  induction l generalizing i with
  | nil => cases h
  | cons x rest ih =>
    cases i with
    | zero => simp
    | succ j =>
      have hj : rest.getD j d ∈ rest := ih j (by simpa using Nat.lt_of_succ_lt_succ h)
      exact List.mem_cons_of_mem x hj

theorem readChoices_of_find? (choices : List (Int × String × List LineComponent))
    (k : Int) (ch : Int × String × List LineComponent) (sect : String) (s : CondLine)
    (c : Container) (hfind : choices.find? (fun ch => decide (ch.1 = k)) = some ch) :
    readChoices choices k sect s c = readList ch.2.2 sect s c := by
  induction choices with
  | nil => simp [List.find?] at hfind
  | cons ch0 rest ih =>
    by_cases hc : ch0.1 = k
    · have : ch0 = ch := by
        simpa [List.find?, hc] using hfind
      subst this
      simp [readChoices, hc]
    · have hfind' : rest.find? (fun ch => decide (ch.1 = k)) = some ch := by
        simpa [List.find?, hc] using hfind
      simp [readChoices, hc, ih hfind']

/-! ## The claims -/

/-- **C1** (counterexample): applying the field list
`[Separator NUMSCAL, Int NUMSCAL, Separator STOICHIOMETRIES,
IntVector STOICHIOMETRIES (Derived NUMSCAL)]` to a cursor holding exactly the
text `"NUMSCAL 3 STOICHIOMETRIES 1 -1 0"` does **not** succeed: the first
separator searches for `" NUMSCAL "` with a leading space, which the text
(beginning directly with `NUMSCAL`) does not contain, so the mandatory
separator fails with `RequiredParameterMissing` and nothing is stored. -/
theorem c1_counterexample :
    (readList numscalFields "SECT" (mkLine "NUMSCAL 3 STOICHIOMETRIES 1 -1 0") []).error =
      some (.requiredParameterMissing "NUMSCAL" "SECT") ∧
    containerGet (readList numscalFields "SECT"
      (mkLine "NUMSCAL 3 STOICHIOMETRIES 1 -1 0") []).container "NUMSCAL" = none ∧
    containerGet (readList numscalFields "SECT"
      (mkLine "NUMSCAL 3 STOICHIOMETRIES 1 -1 0") []).container "STOICHIOMETRIES" = none := by
  decide

/-- **C1** (amended): with the text padded by one leading and one trailing
space — `" NUMSCAL 3 STOICHIOMETRIES 1 -1 0 "`, the form the surrounding
line reader produces — the four reads succeed in order and the container
afterwards maps `NUMSCAL` to the integer `3` and `STOICHIOMETRIES` to the
integer sequence `[1, -1, 0]`, the vector's length being resolved from the
previously parsed `NUMSCAL` entry. -/
theorem c1_amended_padded_scenario :
    (readList numscalFields "SECT" (mkLine " NUMSCAL 3 STOICHIOMETRIES 1 -1 0 ") []).error =
      none ∧
    containerGet (readList numscalFields "SECT"
      (mkLine " NUMSCAL 3 STOICHIOMETRIES 1 -1 0 ") []).container "NUMSCAL" =
      some (.int 3) ∧
    containerGet (readList numscalFields "SECT"
      (mkLine " NUMSCAL 3 STOICHIOMETRIES 1 -1 0 ") []).container "STOICHIOMETRIES" =
      some (.intVec [1, -1, 0]) := by
  decide

/-- **C2**: for every field variant's `read` and every starting cursor
satisfying the invariant, after the call — whether it returned normally or
aborted with an error — the cursor's read position lies within `[0, length]`
of the cursor's current text: position and text stay consistent, so no
mutation (including the erase performed by `SelectionComponent::read` when no
label occurs) leaves the position pointing past the end of the buffer. -/
theorem c2_cursor_position_invariant (comp : LineComponent) (sect : String)
    (s : CondLine) (c : Container) (h : s.gpos ≤ s.text.length) :
    (readComp comp sect s c).line.gpos ≤ (readComp comp sect s c).line.text.length :=
  wf_readComp comp sect s c h

theorem c2_cursor_position_invariant_witness :
    (mkLine "no label here").gpos ≤ (mkLine "no label here").text.length ∧
    (readComp (.selection "SEL" "a" ["a", "b"] (.strs ["pa", "pb"])) "SECT"
        (mkLine "no label here") []).line.gpos ≤
      (readComp (.selection "SEL" "a" ["a", "b"] (.strs ["pa", "pb"])) "SECT"
        (mkLine "no label here") []).line.text.length :=
  ⟨by decide, c2_cursor_position_invariant _ _ _ _ (by decide)⟩

/-- **C4**: `SeparatorComponent::read` behaves as claimed: when the
space-surrounded label is found at position `p`, the label is removed from
the buffer and the cursor is positioned at `p + 1`, immediately after where
the label was; when it is not found and the field is optional, the cursor
moves to the end of the unchanged text; when it is not found and the field is
mandatory, the call fails with `RequiredParameterMissing` naming the
separator and the section, leaving cursor and container untouched. -/
theorem c4_separator_read_contract (sep descr sect : String) (opt : Bool)
    (s : CondLine) (c : Container) (hf : s.failbit = false) :
    (∀ p, findSub s.text (spacePad sep) = some p →
      readComp (.separator sep descr opt) sect s c =
        ⟨⟨s.text.take (p + 1) ++ s.text.drop (p + 1 + sep.length), p + 1, false, false⟩,
         c, none⟩) ∧
    (findSub s.text (spacePad sep) = none → opt = true →
      readComp (.separator sep descr opt) sect s c =
        ⟨⟨s.text, s.text.length, false, false⟩, c, none⟩) ∧
    (findSub s.text (spacePad sep) = none → opt = false →
      readComp (.separator sep descr opt) sect s c =
        ⟨s, c, some (.requiredParameterMissing sep sect)⟩) := by
  refine ⟨?_, ?_, ?_⟩
  · intro p hp
    have hb := findSub_some_bound _ _ _ hp
    rw [spacePad_length] at hb
    simp only [readComp, separatorRead, hp]
    rw [strErase_of_le _ _ _ (by omega)]
    simp only [seekgI, strSet, hf]
    have hlen : (s.text.take (p + 1) ++ s.text.drop (p + 1 + sep.length)).length =
        s.text.length - sep.length := by
      simp only [List.length_append, List.length_take, List.length_drop]
      omega
    rw [if_neg (by simp), if_pos (by constructor <;> simp <;> omega)]
    simp
  · intro hn hopt
    simp only [readComp, separatorRead, hn, hopt, seekgEnd, hf]
    simp
  · intro hn hopt
    simp only [readComp, separatorRead, hn, hopt]
    simp

theorem c4_separator_read_contract_witness :
    (mkLine " K 1 ").failbit = false ∧
    readComp (.separator "K" "" false) "SECT" (mkLine " K 1 ") [] =
      ⟨⟨(mkLine " K 1 ").text.take 1 ++ (mkLine " K 1 ").text.drop 2, 1, false, false⟩,
       [], none⟩ :=
  ⟨by decide, by
    have h := (c4_separator_read_contract "K" "" "SECT" false (mkLine " K 1 ") []
      (by decide)).1 0 (by decide)
    simpa using h⟩

/-- **C9** (counterexample): the rendering round-trip law fails as stated.
For the single-field list `[Separator "A" (mandatory)]`, `render_default`
produces exactly `"A"`, and feeding that exact text back through the same
field list's read sequence does not succeed: the separator looks for
`" A "` with surrounding spaces and fails with `RequiredParameterMissing`. -/
theorem c9_counterexample :
    renderFieldsJoined [.separator "A" "" false] = some "A" ∧
    (readList [.separator "A" "" false] "SECT" (mkLine "A") []).error =
      some (.requiredParameterMissing "A" "SECT") := by
  decide

/-- **C9** (amended): the round trip holds once the rendered line is given
the leading space the label search requires (the surrounding line reader pads
lines in exactly this way).  For the representative field list
`[Separator NUMSCAL, Int NUMSCAL (default 3), Separator STOICHIOMETRIES,
IntVector STOICHIOMETRIES (fixed length 2, default 1)]`, rendering each
field's default text in order, whitespace-separated, and reading the
space-prefixed result back through the same list succeeds and reproduces
every declared default value in the container. -/
theorem c9_roundtrip_padded_sample :
    renderFieldsJoined roundTripFields = some "NUMSCAL 3 STOICHIOMETRIES 1 1 " ∧
    (readList roundTripFields "SECT"
      (mkLine (" " ++ "NUMSCAL 3 STOICHIOMETRIES 1 1 ")) []).error = none ∧
    containerGet (readList roundTripFields "SECT"
      (mkLine (" " ++ "NUMSCAL 3 STOICHIOMETRIES 1 1 ")) []).container "NUMSCAL" =
      some (.int 3) ∧
    containerGet (readList roundTripFields "SECT"
      (mkLine (" " ++ "NUMSCAL 3 STOICHIOMETRIES 1 1 ")) []).container "STOICHIOMETRIES" =
      some (.intVec [1, 1]) := by
  decide

/-- **C3**: `SelectionComponent::read` (given the constructor invariants that
the default value appears among the accepted labels and that the payload list
is parallel to them) always succeeds; it stores under the field's name the
payload — string or integer — paired with the first label in declaration
order whose space-surrounded form occurs anywhere in the cursor's text,
regardless of that label's position in the line; and when no declared label
occurs, it stores the payload paired with the declared default label. -/
theorem c3_selection_first_found_or_default (nm dv : String) (vals : List String)
    (pay : SelPayload) (sect : String) (s : CondLine) (c : Container)
    (hdv : dv ∈ vals) (hlen : payloadLen pay = vals.length) :
    (readComp (.selection nm dv vals pay) sect s c).error = none ∧
    ((∀ v ∈ vals, findSub s.text (spacePad v) = none) →
      (readComp (.selection nm dv vals pay) sect s c).container =
        containerAdd c nm (payloadAt pay (listIndexOf dv vals))) ∧
    (∀ l₁ v l₂ p, vals = l₁ ++ v :: l₂ →
      (∀ u ∈ l₁, findSub s.text (spacePad u) = none) →
      findSub s.text (spacePad v) = some p →
      (readComp (.selection nm dv vals pay) sect s c).container =
        containerAdd c nm (payloadAt pay l₁.length)) := by
  obtain ⟨herr, hcont, hmem⟩ := selectionRead_spec nm dv vals pay sect s c hdv hlen
  refine ⟨by simpa [readComp] using herr, ?_, ?_⟩
  · intro hall
    have hsf : selFind s.text vals = none := selFind_eq_none _ _ hall
    have hsel : selectedLabel s.text vals dv = dv := by
      simp [selectedLabel, hsf]
    simp only [readComp]
    rw [hcont, hsel]
  · intro l₁ v l₂ p hsplit hl1 hv
    have hsf : selFind s.text vals = some (p, v) := by
      rw [hsplit]
      exact selFind_first _ _ _ _ _ hl1 hv
    have hsel : selectedLabel s.text vals dv = v := by
      simp [selectedLabel, hsf]
    have hne : ∀ u ∈ l₁, u ≠ v := by
      intro u hu heq
      have h1 := hl1 u hu
      rw [heq] at h1
      rw [h1] at hv
      exact Option.noConfusion hv
    have hidx : listIndexOf v vals = l₁.length := by
      rw [hsplit]
      exact listIndexOf_append l₁ l₂ v hne
    simp only [readComp]
    rw [hcont, hsel, hidx]

theorem c3_selection_first_found_or_default_witness :
    ("a" ∈ (["a", "b"] : List String) ∧
      payloadLen (.strs ["pa", "pb"]) = (["a", "b"] : List String).length) ∧
    (readComp (.selection "SEL" "a" ["a", "b"] (.strs ["pa", "pb"])) "SECT"
      (mkLine "x b y") []).container =
      containerAdd [] "SEL" (payloadAt (.strs ["pa", "pb"]) 1) :=
  ⟨⟨by decide, by decide⟩, by
    have h := (c3_selection_first_found_or_default "SEL" "a" ["a", "b"] (.strs ["pa", "pb"])
      "SECT" (mkLine "x b y") [] (by decide) (by decide)).2.2 ["a"] "b" [] 1 rfl
      (by decide) (by decide)
    simpa using h⟩

/-- **C5**: whenever the numeric prefix of a token converts to an integer or
a real but leftover characters follow it, `convert_and_validate_string_to_number`
fails with the trailing-garbage error carrying the leftover substring, the
partially converted value, the field name and the section name; the int
overload's message says the variable "has to be an integer", the double
overload's says it "has to be a floating point".  The Real token `"3.14abc"`
concretely fails reporting leftover `"abc"` and value 3.14. -/
theorem c5_trailing_garbage :
    (∀ (tok : List Char) (v : Int) (p : Nat) (nm sect : String) (len : Int) (opt : Bool),
      stoiParse tok = some (v, p) → p ≠ tok.length →
      convertInt tok nm sect len opt =
        .error (.trailingGarbageInt (String.mk (tok.drop p)) v nm sect)) ∧
    (∀ (tok : List Char) (v : ℚ) (p : Nat) (nm sect : String) (len : Int) (opt : Bool),
      stodParse tok = some (v, p) → p ≠ tok.length →
      convertReal tok nm sect len opt =
        .error (.trailingGarbageReal (String.mk (tok.drop p)) v nm sect)) ∧
    convertReal "3.14abc".data "F" "SEC" 1 false =
      .error (.trailingGarbageReal "abc" (157/50 : ℚ) "F" "SEC") ∧
    (∀ l v nm sect, wrongTypeWording (.trailingGarbageInt l v nm sect) =
      some "has to be an integer") ∧
    (∀ l (v : ℚ) nm sect, wrongTypeWording (.trailingGarbageReal l v nm sect) =
      some "has to be a floating point") := by
  refine ⟨?_, ?_, ?_, fun l v nm sect => rfl, fun l v nm sect => rfl⟩
  · intro tok v p nm sect len opt h1 h2
    simp [convertInt, h1, h2]
  · intro tok v p nm sect len opt h1 h2
    simp [convertReal, h1, h2]
  · have h1 : stodParse "3.14abc".data =
        some ((1 : ℚ) * ((3 : ℚ) + (14 : ℚ)/((10 : ℚ)^(2 : ℕ))), 4) := by rfl
    rw [convertReal, h1]
    norm_num

theorem c5_trailing_garbage_witness :
    (stoiParse "5x".data = some (5, 1) ∧ (1 : Nat) ≠ "5x".data.length) ∧
    convertInt "5x".data "V" "S" 1 false = .error (.trailingGarbageInt "x" 5 "V" "S") :=
  ⟨⟨by decide, by decide⟩, by
    have h := c5_trailing_garbage.1 "5x".data 5 1 "V" "S" 1 false (by decide) (by decide)
    exact h⟩

/-- **C6** (counterexample): the token `"yEs"` is a case variant of `Yes`,
but `BoolComponent::read` does not match case-insensitively — it compares
against the six exact literals — so reading it fails with the
invalid-boolean-literal error and stores nothing, where the claim predicts
`true` would be stored. -/
theorem c6_counterexample :
    (readComp (.bool "B" false false) "SECT" (mkLine "yEs ") []).error =
      some (.invalidBooleanLiteral "B" "SECT") ∧
    containerGet (readComp (.bool "B" false false) "SECT" (mkLine "yEs ") []).container
      "B" = none := by
  decide

/-- **C6** (amended): with remaining text, `BoolComponent::read` extracts one
token and matches it against the exact literal sets
`{Yes, YES, yes, True, TRUE, true}` and `{No, NO, no, False, FALSE, false}`:
a token of the first set stores `true`, one of the second stores `false`
(provided the token is not the last thing in the buffer, in which case the
subsequent erase crashes), and any other token — including other case
variants such as `"yEs"` and `"maybe"` — fails with the
invalid-boolean-literal error; with no remaining text the declared default
boolean is stored and the cursor is untouched. -/
theorem c6_bool_exact_literals (nm sect : String) (dflt opt : Bool)
    (s : CondLine) (c : Container) (hf : s.failbit = false) (he : s.eofbit = false)
    (hwf : s.gpos ≤ s.text.length) :
    (s.gpos = s.text.length →
      readComp (.bool nm dflt opt) sect s c = ⟨s, containerAdd c nm (.bool dflt), none⟩) ∧
    (s.gpos ≠ s.text.length →
      (String.mk (extractTok s) ∈ trueLiterals → (extractSt s).eofbit = false →
        (readComp (.bool nm dflt opt) sect s c).error = none ∧
        containerGet (readComp (.bool nm dflt opt) sect s c).container nm =
          some (.bool true)) ∧
      (String.mk (extractTok s) ∈ falseLiterals → (extractSt s).eofbit = false →
        (readComp (.bool nm dflt opt) sect s c).error = none ∧
        containerGet (readComp (.bool nm dflt opt) sect s c).container nm =
          some (.bool false)) ∧
      (String.mk (extractTok s) ∉ trueLiterals → String.mk (extractTok s) ∉ falseLiterals →
        readComp (.bool nm dflt opt) sect s c =
          ⟨extractSt s, c, some (.invalidBooleanLiteral nm sect)⟩)) := by
  have h1 := tellgVal_good s hf he
  have h2 := tellgSt_good s hf he
  refine ⟨?_, ?_⟩
  · intro hend
    simp [readComp, boolRead, h1, h2, hend, sizeTNe_self]
  · intro hne
    refine ⟨?_, ?_, ?_⟩
    · intro hmem he2
      have hraw : rawTok s ≠ [] := by
        intro hr
        rw [extractTok_good s hf he, hr] at hmem
        exact absurd hmem (by decide)
      have hzero : eraseTokErr (extractSt s) (extractTok s).length = none := by
        rw [extractTok_good s hf he]
        exact eraseTokErr_after_extract s hf he hwf hraw he2
      constructor
      · simp [readComp, boolRead, h1, h2, sizeTNe_of_ne _ _ hne, hmem, hzero]
      · simp [readComp, boolRead, h1, h2, sizeTNe_of_ne _ _ hne, hmem, hzero,
          containerGet_add_same]
    · intro hmem he2
      have hraw : rawTok s ≠ [] := by
        intro hr
        rw [extractTok_good s hf he, hr] at hmem
        exact absurd hmem (by decide)
      have hnt : String.mk (extractTok s) ∉ trueLiterals := by
        intro ht
        simp only [trueLiterals, List.mem_cons, List.not_mem_nil, or_false] at ht
        rcases ht with h | h | h | h | h | h <;> rw [h] at hmem <;>
          exact absurd hmem (by decide)
      have hzero : eraseTokErr (extractSt s) (extractTok s).length = none := by
        rw [extractTok_good s hf he]
        exact eraseTokErr_after_extract s hf he hwf hraw he2
      constructor
      · simp [readComp, boolRead, h1, h2, sizeTNe_of_ne _ _ hne, hmem, hnt, hzero]
      · simp [readComp, boolRead, h1, h2, sizeTNe_of_ne _ _ hne, hmem, hnt, hzero,
          containerGet_add_same]
    · intro hnt hnf
      simp [readComp, boolRead, h1, h2, sizeTNe_of_ne _ _ hne, hnt, hnf]

theorem c6_bool_exact_literals_witness :
    ((mkLine "YES x").failbit = false ∧ (mkLine "YES x").eofbit = false ∧
      (mkLine "YES x").gpos ≤ (mkLine "YES x").text.length ∧
      (mkLine "YES x").gpos ≠ (mkLine "YES x").text.length ∧
      String.mk (extractTok (mkLine "YES x")) ∈ trueLiterals ∧
      (extractSt (mkLine "YES x")).eofbit = false) ∧
    ((readComp (.bool "B" false false) "SECT" (mkLine "YES x") []).error = none ∧
      containerGet (readComp (.bool "B" false false) "SECT"
        (mkLine "YES x") []).container "B" = some (.bool true)) :=
  ⟨⟨by decide, by decide, by decide, by decide, by decide, by decide⟩,
    ((c6_bool_exact_literals "B" "SECT" false false (mkLine "YES x") []
      (by decide) (by decide) (by decide)).2 (by decide)).1 (by decide) (by decide)⟩

/-- **C7**: for an optional scalar field — Int or Real — whose cursor has no
remaining text (read position at the text's end, stream good), `read` returns
successfully, the container afterwards holds exactly the declared default
value under the field's name, and the cursor's position, text and flags are
all unchanged by the call. -/
theorem c7_optional_scalar_default_frame (nmI nmR : String) (di : Int) (dr : ℚ)
    (sect : String) (s : CondLine) (c : Container)
    (hf : s.failbit = false) (he : s.eofbit = false) (hend : s.gpos = s.text.length) :
    readComp (.int nmI di true) sect s c = ⟨s, containerAdd c nmI (.int di), none⟩ ∧
    readComp (.real nmR dr true) sect s c = ⟨s, containerAdd c nmR (.real dr), none⟩ := by
  have h1 := tellgVal_good s hf he
  have h2 := tellgSt_good s hf he
  constructor
  · simp [readComp, intRead, h1, h2, hend, sizeTNe_self]
  · simp [readComp, realRead, h1, h2, hend, sizeTNe_self]

theorem c7_optional_scalar_default_frame_witness :
    ((mkLine "").failbit = false ∧ (mkLine "").eofbit = false ∧
      (mkLine "").gpos = (mkLine "").text.length) ∧
    readComp (.int "I" 7 true) "SECT" (mkLine "") [] =
      ⟨mkLine "", containerAdd [] "I" (.int 7), none⟩ :=
  ⟨⟨by decide, by decide, by decide⟩,
    (c7_optional_scalar_default_frame "I" "R" 7 0 "SECT" (mkLine "") []
      (by decide) (by decide) (by decide)).1⟩

/-- **C8**: `SwitchComponent::read` first invokes its embedded Selection
(built over the choices' labels with the keys as integer payloads), which
always succeeds and stores some key `k` of the choices map under the Switch's
own name; the read then equals running exactly `k`'s sub-field list, in
declared order, against the same cursor and container — so the
internal-consistency assertion for a key absent from the map is unreachable.
The final conjunct exhibits a complete successful dispatch: on the sample
two-choice switch with input `" ModelB True "` the selector stores key 1 and
the sub-field list of key 1 populates the container. -/
theorem c8_switch_dispatch (nm : String) (dk : Int)
    (choices : List (Int × String × List LineComponent)) (sect : String)
    (s : CondLine) (c : Container) (hdk : dk ∈ switchKeys choices) :
    (∃ k lbl comps, (k, lbl, comps) ∈ choices ∧
      (selectionRead nm (switchDefaultLabel choices dk) (switchLabels choices)
          (.ints (switchKeys choices)) sect s c).error = none ∧
      containerGet (selectionRead nm (switchDefaultLabel choices dk)
          (switchLabels choices) (.ints (switchKeys choices)) sect s c).container nm =
        some (.int k) ∧
      readComp (.switch nm dk choices) sect s c =
        readList comps sect
          (selectionRead nm (switchDefaultLabel choices dk) (switchLabels choices)
            (.ints (switchKeys choices)) sect s c).line
          (selectionRead nm (switchDefaultLabel choices dk) (switchLabels choices)
            (.ints (switchKeys choices)) sect s c).container) ∧
    ((readComp switchSample "SECT" (mkLine " ModelB True ") []).error = none ∧
      containerGet (readComp switchSample "SECT"
        (mkLine " ModelB True ") []).container "KINETIC_MODEL" = some (.int 1) ∧
      containerGet (readComp switchSample "SECT"
        (mkLine " ModelB True ") []).container "Q" = some (.bool true)) := by
  constructor
  · obtain ⟨dch, hdfind, hdmem, hdkey⟩ := find?_of_mem_keys choices dk hdk
    have hdv : switchDefaultLabel choices dk ∈ switchLabels choices := by
      have : switchDefaultLabel choices dk = dch.2.1 := by
        simp [switchDefaultLabel, hdfind]
      rw [this]
      exact List.mem_map_of_mem _ hdmem
    have hlen : payloadLen (.ints (switchKeys choices)) = (switchLabels choices).length := by
      simp [payloadLen, switchKeys, switchLabels]
    obtain ⟨herr, hcont, hmem⟩ := selectionRead_spec nm (switchDefaultLabel choices dk)
      (switchLabels choices) (.ints (switchKeys choices)) sect s c hdv hlen
    have hidxlt : listIndexOf (selectedLabel s.text (switchLabels choices)
        (switchDefaultLabel choices dk)) (switchLabels choices) <
        (switchKeys choices).length := by
      have := listIndexOf_lt_length _ _ hmem
      simpa [switchKeys, switchLabels] using this
    have hkmem : (switchKeys choices).getD (listIndexOf (selectedLabel s.text
        (switchLabels choices) (switchDefaultLabel choices dk))
        (switchLabels choices)) 0 ∈ switchKeys choices :=
      getD_mem_of_lt _ _ _ hidxlt
    obtain ⟨ch, hfind, hmemch, hkey⟩ := find?_of_mem_keys choices _ hkmem
    have hget : containerGet (selectionRead nm (switchDefaultLabel choices dk)
        (switchLabels choices) (.ints (switchKeys choices)) sect s c).container nm =
        some (.int ((switchKeys choices).getD (listIndexOf (selectedLabel s.text
          (switchLabels choices) (switchDefaultLabel choices dk))
          (switchLabels choices)) 0)) := by
      rw [hcont]
      simp [payloadAt, containerGet_add_same]
    have hgetInt : containerGetInt (selectionRead nm (switchDefaultLabel choices dk)
        (switchLabels choices) (.ints (switchKeys choices)) sect s c).container nm =
        some ((switchKeys choices).getD (listIndexOf (selectedLabel s.text
          (switchLabels choices) (switchDefaultLabel choices dk))
          (switchLabels choices)) 0) := by
      simp [containerGetInt, hget]
    refine ⟨_, ch.2.1, ch.2.2, ?_, herr, hget, ?_⟩
    · rw [← hkey]
      exact hmemch
    · simp only [readComp, herr, hgetInt]
      exact readChoices_of_find? choices _ ch sect _ _ hfind
  · refine ⟨by decide, by decide, by decide⟩

theorem c8_switch_dispatch_witness :
    ((0 : Int) ∈ switchKeys [((0 : Int), "ModelA", [LineComponent.int "P" 7 false]),
      ((1 : Int), "ModelB", [LineComponent.bool "Q" false false])]) ∧
    (∃ k lbl comps, (k, lbl, comps) ∈
        [((0 : Int), "ModelA", [LineComponent.int "P" 7 false]),
         ((1 : Int), "ModelB", [LineComponent.bool "Q" false false])] ∧
      (selectionRead "KINETIC_MODEL" (switchDefaultLabel
          [((0 : Int), "ModelA", [LineComponent.int "P" 7 false]),
           ((1 : Int), "ModelB", [LineComponent.bool "Q" false false])] 0)
          (switchLabels [((0 : Int), "ModelA", [LineComponent.int "P" 7 false]),
           ((1 : Int), "ModelB", [LineComponent.bool "Q" false false])])
          (.ints (switchKeys [((0 : Int), "ModelA", [LineComponent.int "P" 7 false]),
           ((1 : Int), "ModelB", [LineComponent.bool "Q" false false])]))
          "SECT" (mkLine " ModelB True ") []).error = none ∧
      containerGet (selectionRead "KINETIC_MODEL" (switchDefaultLabel
          [((0 : Int), "ModelA", [LineComponent.int "P" 7 false]),
           ((1 : Int), "ModelB", [LineComponent.bool "Q" false false])] 0)
          (switchLabels [((0 : Int), "ModelA", [LineComponent.int "P" 7 false]),
           ((1 : Int), "ModelB", [LineComponent.bool "Q" false false])])
          (.ints (switchKeys [((0 : Int), "ModelA", [LineComponent.int "P" 7 false]),
           ((1 : Int), "ModelB", [LineComponent.bool "Q" false false])]))
          "SECT" (mkLine " ModelB True ") []).container "KINETIC_MODEL" =
        some (.int k) ∧
      readComp (.switch "KINETIC_MODEL" 0
          [((0 : Int), "ModelA", [LineComponent.int "P" 7 false]),
           ((1 : Int), "ModelB", [LineComponent.bool "Q" false false])])
          "SECT" (mkLine " ModelB True ") [] =
        readList comps "SECT"
          (selectionRead "KINETIC_MODEL" (switchDefaultLabel
            [((0 : Int), "ModelA", [LineComponent.int "P" 7 false]),
             ((1 : Int), "ModelB", [LineComponent.bool "Q" false false])] 0)
            (switchLabels [((0 : Int), "ModelA", [LineComponent.int "P" 7 false]),
             ((1 : Int), "ModelB", [LineComponent.bool "Q" false false])])
            (.ints (switchKeys [((0 : Int), "ModelA", [LineComponent.int "P" 7 false]),
             ((1 : Int), "ModelB", [LineComponent.bool "Q" false false])]))
            "SECT" (mkLine " ModelB True ") []).line
          (selectionRead "KINETIC_MODEL" (switchDefaultLabel
            [((0 : Int), "ModelA", [LineComponent.int "P" 7 false]),
             ((1 : Int), "ModelB", [LineComponent.bool "Q" false false])] 0)
            (switchLabels [((0 : Int), "ModelA", [LineComponent.int "P" 7 false]),
             ((1 : Int), "ModelB", [LineComponent.bool "Q" false false])])
            (.ints (switchKeys [((0 : Int), "ModelA", [LineComponent.int "P" 7 false]),
             ((1 : Int), "ModelB", [LineComponent.bool "Q" false false])]))
            "SECT" (mkLine " ModelB True ") []).container) :=
  ⟨by decide,
    (c8_switch_dispatch "KINETIC_MODEL" 0
      [((0 : Int), "ModelA", [LineComponent.int "P" 7 false]),
       ((1 : Int), "ModelB", [LineComponent.bool "Q" false false])]
      "SECT" (mkLine " ModelB True ") [] (by decide)).1⟩

/-- **C10**: a Separator or Selection label is found exactly when it occurs
in the cursor's stored text with a literal space character immediately before
it and immediately after it (the search pattern is `" " + label + " "`).
Consequently a label occurrence at the very start of the stored text
(`"NUMSCAL 3"`) lacks its leading space and is treated as absent, so the
mandatory separator takes the failure path; and an occurrence at the very end
(`"1 yes"`) lacks its trailing space, so the Selection takes the not-found
path and stores the default payload. -/
theorem c10_label_surrounded_by_spaces :
    (∀ (t : List Char) (label : String),
      findSub t (spacePad label) = none ↔ ¬ occursIn (spacePad label) t) ∧
    readComp (.separator "NUMSCAL" "" false) "SECT" (mkLine "NUMSCAL 3") [] =
      ⟨mkLine "NUMSCAL 3", [], some (.requiredParameterMissing "NUMSCAL" "SECT")⟩ ∧
    (readComp (.selection "SEL" "yes" ["yes"] (.strs ["sy"])) "SECT"
      (mkLine "1 yes") []).container = containerAdd [] "SEL" (.str "sy") := by
  refine ⟨fun t label => findSub_eq_none_iff t (spacePad label), by decide, by decide⟩

theorem c10_label_surrounded_by_spaces_witness :
    findSub "NUMSCAL 3".data (spacePad "NUMSCAL") = none ↔
      ¬ occursIn (spacePad "NUMSCAL") "NUMSCAL 3".data :=
  c10_label_surrounded_by_spaces.1 "NUMSCAL 3".data "NUMSCAL"

end Input
